import Mathlib

/-!
Verification of the NetworkCalculator IPv4 addressing engine
(`src/utils/ip-utils.ts`), shallowly embedded in Lean.

Modelling conventions:
* JS strings are modelled as `List Char`.
* JS numbers that hold 32-bit values are modelled as `Int`/`Nat`, with the
  ECMAScript `ToInt32`/`ToUint32` conversions made explicit (`toInt32`,
  `toUint32`).  In particular a JS shift takes its shift count modulo 32,
  which `jsShl`/`jsShrU` reproduce.
* JS `NaN` (as produced by a failed `parseInt`) is modelled by `Option`:
  `none` is `NaN`; `ToInt32 NaN = 0` and `ToUint32 NaN = 0`.
* All float arithmetic performed by the source stays below `2^53` on the
  domains quantified by the theorems (prefix lengths in `[0,32]`, octets in
  `[0,255]`), so exact integer arithmetic is a faithful model there.
-/

/-- ECMAScript `ToUint32` on an exact integer value. -/
def toUint32 (x : Int) : Nat := (x % (2 ^ 32 : Int)).toNat

/-- ECMAScript `ToInt32` on an exact integer value. -/
def toInt32 (x : Int) : Int :=
  if toUint32 x < 2 ^ 31 then (toUint32 x : Int) else (toUint32 x : Int) - 2 ^ 32

/-- JS bitwise AND `x & y` (operands pass through `ToInt32`; the bit pattern
of an int32 is its `ToUint32` image). -/
def jsAnd (x y : Int) : Int := toInt32 ((toUint32 x &&& toUint32 y : Nat) : Int)

/-- JS bitwise OR `x | y`. -/
def jsOr (x y : Int) : Int := toInt32 ((toUint32 x ||| toUint32 y : Nat) : Int)

/-- JS bitwise NOT `~x`: complement of the 32-bit pattern. -/
def jsNot (x : Int) : Int := toInt32 ((2 ^ 32 - 1 - toUint32 x : Nat) : Int)

/-- JS left shift `x << y`: the shift count is `ToUint32 y` reduced mod 32. -/
def jsShl (x y : Int) : Int := toInt32 (toInt32 x * 2 ^ (toUint32 y % 32))

/-- JS unsigned right shift `x >>> y`. -/
def jsShrU (x y : Int) : Nat := toUint32 x / 2 ^ (toUint32 y % 32)

/-- `ToInt32` extended to the `NaN` marker: `ToInt32 NaN = 0`. -/
def toInt32N : Option Int → Int
  | none => 0
  | some v => toInt32 v

/-- `ToUint32` extended to the `NaN` marker: `ToUint32 NaN = 0`. -/
def toUint32N : Option Int → Nat
  | none => 0
  | some v => toUint32 v

/-- Splitting a JS string on the one-character separator `'.'`
(`ip.split('.')`). -/
def splitDot : List Char → List (List Char)
  | [] => [[]]
  | c :: cs =>
    if c = '.' then [] :: splitDot cs
    else
      match splitDot cs with
      | [] => [[c]]
      | p :: ps => (c :: p) :: ps

/-- Joining with `'.'` (`array.join('.')`), the inverse of `splitDot`. -/
def intercalateDot : List (List Char) → List Char
  | [] => []
  | [p] => p
  | p :: ps => p ++ '.' :: intercalateDot ps

/-- Shorthand turning a Lean string literal into the `List Char` model of a
JS string. -/
def strL (s : String) : List Char := s.data

/-- ECMAScript whitespace accepted (and skipped) by `parseInt`. -/
def isJsSpace (c : Char) : Bool :=
  c = ' ' || c = '\t' || c = '\n' || c = '\r' ||
    c = Char.ofNat 11 || c = Char.ofNat 12 || c = Char.ofNat 0xa0

/-- Decimal digit test. -/
def isDigit (c : Char) : Bool := '0' ≤ c && c ≤ '9'

/-- Value of a digit run, most significant first. -/
def digitsVal (l : List Char) : Nat :=
  l.foldl (fun a c => a * 10 + (c.toNat - 48)) 0

/-- Model of JS `parseInt(s, 10)`: skip leading whitespace, optional single
sign, then the longest run of decimal digits; `NaN` (= `none`) if that run
is empty.  (Float rounding above `2^53` is not modelled; every theorem below
uses the result only under a `≤ 255` guard.) -/
def jsParseInt10 (s : List Char) : Option Int :=
  let t := s.dropWhile isJsSpace
  match t with
  | '-' :: r =>
    let ds := r.takeWhile isDigit
    if ds.isEmpty then none else some (-(digitsVal ds : Int))
  | '+' :: r =>
    let ds := r.takeWhile isDigit
    if ds.isEmpty then none else some ((digitsVal ds : Int))
  | _ =>
    let ds := t.takeWhile isDigit
    if ds.isEmpty then none else some ((digitsVal ds : Int))

/-- Canonical decimal rendering of a nonnegative integer
(JS `Number.prototype.toString` on such a value). -/
def natToStr (n : Nat) : List Char := (Nat.repr n).data

/-- JS `Number.prototype.toString` on an integer value. -/
def intToStr (n : Int) : List Char :=
  if n < 0 then '-' :: natToStr (-n).toNat else natToStr n.toNat

/-- The callback of `parts.every` inside `isValidIp`:
`!isNaN(num) && num >= 0 && num <= 255 && part === num.toString()`. -/
def partOk (part : List Char) : Bool :=
  match jsParseInt10 part with
  | none => false
  | some num => decide (0 ≤ num) && decide (num ≤ 255) && decide (part = intToStr num)

/-- `IpUtils.isValidIp`. -/
def isValidIp (ip : List Char) : Bool :=
  let parts := splitDot ip
  decide (parts.length = 4) && parts.all partOk

/-- `IpUtils.ipToLong`:
`ip.split('.').reduce((acc, octet) => (acc << 8) + parseInt(octet, 10), 0) >>> 0`.
A `NaN` accumulator (`none`) propagates through `+` but is flushed to `0`
by `<< 8`; the final `>>> 0` maps `NaN` to `0`. -/
def ipToLong (ip : List Char) : Nat :=
  toUint32N ((splitDot ip).foldl
    (fun acc octet =>
      match jsParseInt10 octet with
      | none => none
      | some n => some (jsShl (toInt32N acc) 8 + n))
    (some 0))

/-- `IpUtils.longToIp`: render the four bytes, most significant first, and
dot-join them.  `(long >>> k) & 255` keeps a value in `[0,255]`, on which
JS `toString` is `natToStr`. -/
def longToIp (long : Int) : List Char :=
  intercalateDot [
    natToStr (jsShrU long 24 &&& 255),
    natToStr (jsShrU long 16 &&& 255),
    natToStr (jsShrU long 8 &&& 255),
    natToStr (toUint32 (jsAnd long 255))]

/-- `IpUtils.toBinaryString`: `(num >>> 0).toString(2).padStart(32, '0')`. -/
def toBinaryString (num : Int) : List Char :=
  let ds := Nat.toDigits 2 (toUint32 num)
  List.replicate (32 - ds.length) '0' ++ ds

/-- Return type of `IpUtils.getNetworkClass`. -/
structure NetworkClass where
  char : List Char
  defaultCidr : Nat
deriving DecidableEq

/-- `IpUtils.getNetworkClass`.  The argument is an `Int` so that the NaN
case can be routed around it (all comparisons with NaN are false in JS,
which selects the final class-E branch). -/
def getNetworkClass (firstOctet : Int) : NetworkClass :=
  if 0 ≤ firstOctet ∧ firstOctet ≤ 127 then ⟨strL "A", 8⟩
  else if 128 ≤ firstOctet ∧ firstOctet ≤ 191 then ⟨strL "B", 16⟩
  else if 192 ≤ firstOctet ∧ firstOctet ≤ 223 then ⟨strL "C", 24⟩
  else if 224 ≤ firstOctet ∧ firstOctet ≤ 239 then ⟨strL "D", 0⟩
  else ⟨strL "E", 0⟩

/-- The `IpType` string-literal union of the source. -/
inductive IpType where
  | Private
  | Public
  | Loopback
  | LinkLocal
  | Multicast
  | Reserved
  | CGNAT
  | Unknown
deriving DecidableEq

/-- `IpCategoryInfo` of the source (optional fields are `Option`). -/
structure IpCategoryInfo where
  type : IpType
  rangeName : Option (List Char)
  minCidr : Option Nat
  description : Option (List Char)
  isPrivate : Bool
deriving DecidableEq

/-- One entry of `PRIVATE_RANGES` (`stop` is the source's `end`, a Lean
keyword). -/
structure PrivateRange where
  start : Nat
  stop : Nat
  name : List Char
  minCidr : Nat
deriving DecidableEq

/-- The `PRIVATE_RANGES` constant. -/
def PRIVATE_RANGES : List PrivateRange :=
  [⟨167772160, 184549375, strL "10.0.0.0/8", 8⟩,
   ⟨2886729728, 2887778303, strL "172.16.0.0/12", 12⟩,
   ⟨3232235520, 3232301055, strL "192.168.0.0/16", 16⟩]

/-- `IpUtils.getIpCategory` (the `for` loop over `PRIVATE_RANGES` returning
on the first hit is `List.find?`). -/
def getIpCategory (ip : List Char) : IpCategoryInfo :=
  if ¬ isValidIp ip then ⟨IpType.Unknown, none, none, none, false⟩
  else
    let long := ipToLong ip
    match PRIVATE_RANGES.find?
        (fun range => decide (range.start ≤ long) && decide (long ≤ range.stop)) with
    | some range =>
      ⟨IpType.Private, some range.name, some range.minCidr, some (strL "RFC 1918 Private"), true⟩
    | none =>
      if 2130706432 ≤ long ∧ long ≤ 2147483647 then
        ⟨IpType.Loopback, none, none, some (strL "Loopback Address"), false⟩
      else if 2851995648 ≤ long ∧ long ≤ 2852061183 then
        ⟨IpType.LinkLocal, none, none, some (strL "APIPA / Link-Local"), false⟩
      else if 1681915904 ≤ long ∧ long ≤ 1686110207 then
        ⟨IpType.CGNAT, none, none, some (strL "Carrier-Grade NAT"), false⟩
      else if 3758096384 ≤ long ∧ long ≤ 4026531839 then
        ⟨IpType.Multicast, none, none, some (strL "Multicast"), false⟩
      else if 4026531840 ≤ long ∧ long ≤ 4294967295 then
        ⟨IpType.Reserved, none, none, some (strL "Reserved"), false⟩
      else
        ⟨IpType.Public, none, none, some (strL "Public Internet Address"), false⟩

/-- `IpUtils.checkPrivateOverlap`. -/
def checkPrivateOverlap (ip : List Char) (cidr : Nat) : Option (List Char) :=
  if ¬ isValidIp ip then none
  else
    let ipLong := ipToLong ip
    let maskLong : Nat := toUint32 (jsShl (-1) ((32 : Int) - (cidr : Int)))
    let networkStart : Nat := toUint32 (jsAnd (ipLong : Int) (maskLong : Int))
    let networkEnd : Nat := toUint32 (jsOr (networkStart : Int) (jsNot (maskLong : Int)))
    (PRIVATE_RANGES.find?
      (fun range => decide (networkStart ≤ range.stop) && decide (range.start ≤ networkEnd))).map
      (fun range => range.name)

/-- `SubnetDetails` of the source. -/
structure SubnetDetails where
  ip : List Char
  cidr : Nat
  subnetMask : List Char
  networkAddress : List Char
  broadcastAddress : List Char
  firstHost : List Char
  lastHost : List Char
  hostsPerSubnet : Nat
  hostBits : Nat
  borrowedBits : Nat
  subnetsCreated : Nat
  networkClass : List Char
  defaultCidr : Nat
  baseCidr : Nat
  binaryIp : List Char
  binaryMask : List Char
  binaryNet : List Char
  isValid : Bool
deriving DecidableEq

/-- `IpUtils.calculateSubnet`.  `cidr` is a natural number; `32 - cidr` is
the source's subtraction, faithful on the documented prefix domain
`[0,32]`. -/
def calculateSubnet (ip : List Char) (cidr : Nat) (parentCidr : Option Nat) : SubnetDetails :=
  if ¬ isValidIp ip then
    { isValid := false, ip := ip, cidr := cidr, subnetMask := [], networkAddress := [],
      broadcastAddress := [], firstHost := [], lastHost := [], hostsPerSubnet := 0,
      hostBits := 0, borrowedBits := 0, subnetsCreated := 0, networkClass := strL "-",
      defaultCidr := 0, baseCidr := 0, binaryIp := [], binaryMask := [], binaryNet := [] }
  else
    let ipLong := ipToLong ip
    let maskLong : Int := jsShl (-1) ((32 : Int) - (cidr : Int))
    let networkLong : Nat := toUint32 (jsAnd (ipLong : Int) maskLong)
    let broadcastLong : Nat := toUint32 (jsOr (networkLong : Int) (jsNot maskLong))
    let hostBits : Nat := 32 - cidr
    let hostsPerSubnet : Nat := if 0 < hostBits then 2 ^ hostBits - 2 else 0
    let netClass : NetworkClass :=
      match jsParseInt10 ((splitDot ip).getD 0 []) with
      | some n => getNetworkClass n
      | none => ⟨strL "E", 0⟩
    let baseCidr : Nat := parentCidr.getD netClass.defaultCidr
    let borrowedBits : Nat := if 0 < baseCidr ∧ baseCidr ≤ cidr then cidr - baseCidr else 0
    let subnetsCreated : Nat := 2 ^ borrowedBits
    let firstHostLong : Nat := toUint32 ((networkLong : Int) + 1)
    let lastHostLong : Nat := toUint32 ((broadcastLong : Int) - 1)
    { isValid := true, ip := ip, cidr := cidr,
      subnetMask := longToIp maskLong,
      networkAddress := longToIp (networkLong : Int),
      broadcastAddress := longToIp (broadcastLong : Int),
      firstHost := if cidr < 31 then longToIp (firstHostLong : Int) else strL "N/A",
      lastHost := if cidr < 31 then longToIp (lastHostLong : Int) else strL "N/A",
      hostsPerSubnet := if 0 < hostsPerSubnet then hostsPerSubnet else 0,
      hostBits := hostBits, borrowedBits := borrowedBits, subnetsCreated := subnetsCreated,
      networkClass := netClass.char, defaultCidr := netClass.defaultCidr, baseCidr := baseCidr,
      binaryIp := toBinaryString (ipLong : Int), binaryMask := toBinaryString maskLong,
      binaryNet := toBinaryString (networkLong : Int) }

/-- `SubnetRow` of the source. -/
structure SubnetRow where
  index : Nat
  networkAddress : List Char
  range : List Char
  broadcastAddress : List Char
  isCurrent : Bool
deriving DecidableEq

/-- Result record of `generateSubnetTable`. -/
structure SubnetTable where
  rows : List SubnetRow
  totalCount : Nat
  truncated : Bool
deriving DecidableEq

/-- `IpUtils.generateSubnetTable` (the source's `limit` parameter defaults
to 256 at call sites; here it is explicit).  The loop pushing one row per
`i < loopLimit` is `List.range`/`map`; all the additions the source
performs on JS floats are exact on the documented domain and are reduced
by `>>> 0`, i.e. `% 2^32`. -/
def generateSubnetTable (ip : List Char) (cidr baseCidr limit : Nat) : SubnetTable :=
  if ¬ isValidIp ip ∨ cidr < baseCidr then ⟨[], 0, false⟩
  else
    let ipLong := ipToLong ip
    let baseMaskLong : Nat := toUint32 (jsShl (-1) ((32 : Int) - (baseCidr : Int)))
    let baseNetworkLong : Nat := toUint32 (jsAnd (ipLong : Int) (baseMaskLong : Int))
    let borrowedBits : Nat := cidr - baseCidr
    let totalCount : Nat := 2 ^ borrowedBits
    let increment : Nat := 2 ^ (32 - cidr)
    let loopLimit : Nat := min totalCount limit
    let rows : List SubnetRow := (List.range loopLimit).map (fun i =>
      let currentNet : Nat := (baseNetworkLong + i * increment) % 2 ^ 32
      let currentBroadcast : Nat := (currentNet + increment - 1) % 2 ^ 32
      let startHost : Nat := (currentNet + 1) % 2 ^ 32
      let endHost : Nat := toUint32 ((currentBroadcast : Int) - 1)
      let isCurrent : Bool := decide (currentNet ≤ ipLong) && decide (ipLong ≤ currentBroadcast)
      { index := i + 1,
        networkAddress := longToIp (currentNet : Int),
        range :=
          if cidr < 31 then
            longToIp (startHost : Int) ++ strL " - " ++ longToIp (endHost : Int)
          else strL "N/A",
        broadcastAddress := longToIp (currentBroadcast : Int),
        isCurrent := isCurrent })
    ⟨rows, totalCount, decide (limit < totalCount)⟩

/-- Canonical dotted-decimal string of four octets (used to state claims
about valid addresses). -/
def mkIp (a b c d : Nat) : List Char :=
  intercalateDot [natToStr a, natToStr b, natToStr c, natToStr d]

/-- Membership of an integer address in the contiguous range that the spec
describes by a dotted base address and a prefix length. -/
def rangeHit (base : List Char) (p : Nat) (a : Nat) : Bool :=
  decide (ipToLong base ≤ a) && decide (a ≤ ipToLong base + (2 ^ (32 - p) - 1))

/-- Classifier written from the spec's words (claim C6): fixed priority
order of contiguous ranges given by dotted base and prefix length; the
result is the (type, range name, minimum safe prefix) triple the claim
speaks about.  To be compared with `getIpCategory`. -/
def specClassify (ip : List Char) : IpType × Option (List Char) × Option Nat :=
  if ¬ isValidIp ip then (IpType.Unknown, none, none)
  else
    let a := ipToLong ip
    if rangeHit (strL "10.0.0.0") 8 a then (IpType.Private, some (strL "10.0.0.0/8"), some 8)
    else if rangeHit (strL "172.16.0.0") 12 a then
      (IpType.Private, some (strL "172.16.0.0/12"), some 12)
    else if rangeHit (strL "192.168.0.0") 16 a then
      (IpType.Private, some (strL "192.168.0.0/16"), some 16)
    else if rangeHit (strL "127.0.0.0") 8 a then (IpType.Loopback, none, none)
    else if rangeHit (strL "169.254.0.0") 16 a then (IpType.LinkLocal, none, none)
    else if rangeHit (strL "100.64.0.0") 10 a then (IpType.CGNAT, none, none)
    else if rangeHit (strL "224.0.0.0") 4 a then (IpType.Multicast, none, none)
    else if rangeHit (strL "240.0.0.0") 4 a then (IpType.Reserved, none, none)
    else (IpType.Public, none, none)

/-- The mask `-1 << (32 - cidr)` computed inside `calculateSubnet` (named
here so that theorems can speak about the record's fields). -/
def maskLongOf (cidr : Nat) : Int := jsShl (-1) ((32 : Int) - (cidr : Int))

/-- The `networkLong` value computed inside `calculateSubnet`. -/
def networkLongOf (s : List Char) (cidr : Nat) : Nat :=
  toUint32 (jsAnd ((ipToLong s : Nat) : Int) (maskLongOf cidr))

/-- The `broadcastLong` value computed inside `calculateSubnet`. -/
def broadcastLongOf (s : List Char) (cidr : Nat) : Nat :=
  toUint32 (jsOr ((networkLongOf s cidr : Nat) : Int) (jsNot (maskLongOf cidr)))

/-- The network-class record `calculateSubnet` derives from the first
'.'-separated part of the address. -/
def netClassOf (s : List Char) : NetworkClass :=
  match jsParseInt10 ((splitDot s).getD 0 []) with
  | some n => getNetworkClass n
  | none => ⟨strL "E", 0⟩

/-- The effective base prefix length of `calculateSubnet`: `parentCidr`
when supplied, else the legacy class default. -/
def baseCidrOf (s : List Char) (p : Option Nat) : Nat := p.getD (netClassOf s).defaultCidr

theorem toUint32_lt (x : Int) : toUint32 x < 2 ^ 32 := by
  unfold toUint32; omega

theorem toUint32_coe (n : Nat) : toUint32 (n : Int) = n % 2 ^ 32 := by
  unfold toUint32; omega

theorem toUint32_coe_lt {n : Nat} (h : n < 2 ^ 32) : toUint32 (n : Int) = n := by
  unfold toUint32; omega

theorem toUint32_toInt32 (x : Int) : toUint32 (toInt32 x) = toUint32 x := by
  unfold toInt32 toUint32
  split <;> omega

theorem toInt32_coe_small {n : Nat} (h : n < 2 ^ 31) : toInt32 (n : Int) = n := by
  unfold toInt32 toUint32
  split <;> omega

theorem splitDot_ne_nil (s : List Char) : splitDot s ≠ [] := by
  induction s with
  | nil => simp [splitDot]
  | cons c cs ih =>
    unfold splitDot
    split
    · simp
    · match h : splitDot cs with
      | [] => simp
      | p :: ps => simp [h]

theorem intercalateDot_splitDot (s : List Char) : intercalateDot (splitDot s) = s := by
  induction s with
  | nil => rfl
  | cons c cs ih =>
    unfold splitDot
    by_cases h : c = '.'
    · rw [if_pos h]
      match h2 : splitDot cs with
      | [] => exact absurd h2 (splitDot_ne_nil cs)
      | [p] =>
        rw [h2] at ih
        simp only [intercalateDot] at ih ⊢
        simp [ih, h]
      | p :: q :: ps =>
        rw [h2] at ih
        simp only [intercalateDot] at ih ⊢
        simp [ih, h]
    · rw [if_neg h]
      match h2 : splitDot cs with
      | [] => exact absurd h2 (splitDot_ne_nil cs)
      | [p] =>
        rw [h2] at ih
        simp only [intercalateDot] at ih ⊢
        simp [ih]
      | p :: q :: ps =>
        rw [h2] at ih
        simp only [intercalateDot] at ih ⊢
        simp [ih]

theorem splitDot_no_dot {l : List Char} (h : '.' ∉ l) : splitDot l = [l] := by
  induction l with
  | nil => rfl
  | cons c cs ih =>
    simp only [List.mem_cons, not_or] at h
    unfold splitDot
    rw [if_neg (fun hh => h.1 hh.symm)]
    rw [ih h.2]

theorem splitDot_append {l : List Char} (h : '.' ∉ l) (r : List Char) :
    splitDot (l ++ '.' :: r) = l :: splitDot r := by
  induction l with
  | nil =>
    show splitDot ('.' :: r) = [] :: splitDot r
    conv_lhs => unfold splitDot
    rw [if_pos rfl]
  | cons c cs ih =>
    simp only [List.mem_cons, not_or] at h
    show splitDot (c :: (cs ++ '.' :: r)) = (c :: cs) :: splitDot r
    conv_lhs => unfold splitDot
    rw [if_neg (fun hh => h.1 hh.symm)]
    rw [ih h.2]

set_option maxRecDepth 10000

theorem jsParseInt10_natToStr : ∀ m : Nat, m < 256 → jsParseInt10 (natToStr m) = some (m : Int) := by
  decide

theorem partOk_natToStr : ∀ m : Nat, m < 256 → partOk (natToStr m) = true := by
  decide

theorem natToStr_no_dot : ∀ m : Nat, m < 256 → '.' ∉ natToStr m := by
  decide

theorem splitDot_mkIp {a b c d : Nat} (ha : a ≤ 255) (hb : b ≤ 255) (hc : c ≤ 255)
    (hd : d ≤ 255) :
    splitDot (mkIp a b c d) = [natToStr a, natToStr b, natToStr c, natToStr d] := by
  show splitDot (natToStr a ++ '.' :: (natToStr b ++ '.' :: (natToStr c ++ '.' :: natToStr d))) = _
  rw [splitDot_append (natToStr_no_dot a (by omega)),
    splitDot_append (natToStr_no_dot b (by omega)),
    splitDot_append (natToStr_no_dot c (by omega)),
    splitDot_no_dot (natToStr_no_dot d (by omega))]

theorem isValidIp_iff (s : List Char) :
    isValidIp s = true ↔
      (splitDot s).length = 4 ∧ ∀ p ∈ splitDot s, ∃ m : Nat, m ≤ 255 ∧ p = natToStr m := by
  unfold isValidIp
  simp only [Bool.and_eq_true, decide_eq_true_eq, List.all_eq_true]
  constructor
  · rintro ⟨h4, hall⟩
    refine ⟨h4, fun p hp => ?_⟩
    have hok := hall p hp
    unfold partOk at hok
    match hh : jsParseInt10 p with
    | none => rw [hh] at hok; simp at hok
    | some n =>
      rw [hh] at hok
      simp only [Bool.and_eq_true, decide_eq_true_eq] at hok
      obtain ⟨⟨h0, h255⟩, heq⟩ := hok
      refine ⟨n.toNat, by omega, ?_⟩
      rw [heq]
      unfold intToStr
      rw [if_neg (by omega)]
  · rintro ⟨h4, hex⟩
    refine ⟨h4, fun p hp => ?_⟩
    obtain ⟨m, hm, rfl⟩ := hex p hp
    exact partOk_natToStr m (by omega)

theorem isValidIp_mkIp {a b c d : Nat} (ha : a ≤ 255) (hb : b ≤ 255) (hc : c ≤ 255)
    (hd : d ≤ 255) : isValidIp (mkIp a b c d) = true := by
  rw [isValidIp_iff, splitDot_mkIp ha hb hc hd]
  refine ⟨rfl, fun p hp => ?_⟩
  simp only [List.mem_cons, List.not_mem_nil, or_false] at hp
  rcases hp with rfl | rfl | rfl | rfl
  · exact ⟨a, ha, rfl⟩
  · exact ⟨b, hb, rfl⟩
  · exact ⟨c, hc, rfl⟩
  · exact ⟨d, hd, rfl⟩

theorem isValidIp_destruct {s : List Char} (h : isValidIp s = true) :
    ∃ a b c d : Nat, a ≤ 255 ∧ b ≤ 255 ∧ c ≤ 255 ∧ d ≤ 255 ∧
      splitDot s = [natToStr a, natToStr b, natToStr c, natToStr d] ∧ s = mkIp a b c d := by
  obtain ⟨h4, hall⟩ := (isValidIp_iff s).mp h
  match hsp : splitDot s with
  | [p0, p1, p2, p3] =>
    obtain ⟨a, ha, rfl⟩ := hall p0 (by rw [hsp]; simp)
    obtain ⟨b, hb, rfl⟩ := hall p1 (by rw [hsp]; simp)
    obtain ⟨c, hc, rfl⟩ := hall p2 (by rw [hsp]; simp)
    obtain ⟨d, hd, rfl⟩ := hall p3 (by rw [hsp]; simp)
    refine ⟨a, b, c, d, ha, hb, hc, hd, rfl, ?_⟩
    have := intercalateDot_splitDot s
    rw [hsp] at this
    exact this.symm
  | [] => rw [hsp] at h4; simp at h4
  | [p0] => rw [hsp] at h4; simp at h4
  | [p0, p1] => rw [hsp] at h4; simp at h4
  | [p0, p1, p2] => rw [hsp] at h4; simp at h4
  | p0 :: p1 :: p2 :: p3 :: p4 :: t => rw [hsp] at h4; simp at h4

theorem toUint32N_lt (o : Option Int) : toUint32N o < 2 ^ 32 := by
  cases o with
  | none => simp [toUint32N]
  | some v => exact toUint32_lt v

theorem ipToLong_lt (s : List Char) : ipToLong s < 2 ^ 32 := toUint32N_lt _

theorem and255_mod (x : Nat) : x &&& 255 = x % 256 := by
  have h : (255 : Nat) = 2 ^ 8 - 1 := by norm_num
  rw [h, Nat.and_pow_two_sub_one_eq_mod]

theorem toInt32_small {x : Int} (h0 : 0 ≤ x) (h1 : x < 2 ^ 31) : toInt32 x = x := by
  unfold toInt32 toUint32
  split <;> omega

theorem toInt32_idem (x : Int) : toInt32 (toInt32 x) = toInt32 x := by
  unfold toInt32 toUint32
  split <;> split <;> omega

theorem jsShl8 (x : Int) : jsShl x 8 = toInt32 (toInt32 x * 256) := by
  have h : toUint32 (8 : Int) % 32 = 8 := by decide
  unfold jsShl
  rw [h]
  norm_num

theorem ipToLong_mkIp {a b c d : Nat} (ha : a ≤ 255) (hb : b ≤ 255) (hc : c ≤ 255)
    (hd : d ≤ 255) :
    ipToLong (mkIp a b c d) = ((a * 256 + b) * 256 + c) * 256 + d := by
  have t_a : toInt32 ((a : Int)) = (a : Int) := toInt32_small (by omega) (by omega)
  have t_a256 : toInt32 ((a : Int) * 256) = (a : Int) * 256 :=
    toInt32_small (by omega) (by omega)
  have t_ab : toInt32 ((a : Int) * 256 + (b : Int)) = (a : Int) * 256 + (b : Int) :=
    toInt32_small (by omega) (by omega)
  have t_ab256 : toInt32 (((a : Int) * 256 + (b : Int)) * 256) =
      ((a : Int) * 256 + (b : Int)) * 256 := toInt32_small (by omega) (by omega)
  have t_abc : toInt32 (((a : Int) * 256 + (b : Int)) * 256 + (c : Int)) =
      ((a : Int) * 256 + (b : Int)) * 256 + (c : Int) :=
    toInt32_small (by omega) (by omega)
  unfold ipToLong
  rw [splitDot_mkIp ha hb hc hd]
  simp only [List.foldl_cons, List.foldl_nil,
    jsParseInt10_natToStr a (by omega), jsParseInt10_natToStr b (by omega),
    jsParseInt10_natToStr c (by omega), jsParseInt10_natToStr d (by omega),
    toInt32N, toUint32N, jsShl8, toInt32_idem]
  simp only [(by decide : toInt32 (0 : Int) = 0), zero_mul, zero_add,
    t_a, t_a256, t_ab, t_ab256, t_abc]
  unfold toInt32 toUint32
  split <;> omega

theorem longToIp_eval {a b c d : Nat} (ha : a ≤ 255) (hb : b ≤ 255) (hc : c ≤ 255)
    (hd : d ≤ 255) :
    longToIp ((((a * 256 + b) * 256 + c) * 256 + d : Nat) : Int) = mkIp a b c d := by
  have hN : (((a * 256 + b) * 256 + c) * 256 + d) < 2 ^ 32 := by omega
  have h24 : toUint32 (24 : Int) % 32 = 24 := by decide
  have h16 : toUint32 (16 : Int) % 32 = 16 := by decide
  have h8 : toUint32 (8 : Int) % 32 = 8 := by decide
  have hb255 : toUint32 (255 : Int) = 255 := by decide
  unfold longToIp mkIp jsShrU jsAnd
  rw [toUint32_coe_lt hN, h24, h16, h8, hb255, and255_mod, and255_mod, and255_mod, and255_mod]
  have e1 : (((a * 256 + b) * 256 + c) * 256 + d) / 2 ^ 24 % 256 = a := by omega
  have e2 : (((a * 256 + b) * 256 + c) * 256 + d) / 2 ^ 16 % 256 = b := by omega
  have e3 : (((a * 256 + b) * 256 + c) * 256 + d) / 2 ^ 8 % 256 = c := by omega
  have e4 : (((a * 256 + b) * 256 + c) * 256 + d) % 256 = d := by omega
  rw [e1, e2, e3]
  have e5 : toUint32 (toInt32 ((((a * 256 + b) * 256 + c) * 256 + d) % 256 : Nat)) = d := by
    unfold toInt32 toUint32
    split <;> omega
  rw [e5]

theorem longToIp_ipToLong {s : List Char} (h : isValidIp s = true) :
    longToIp ((ipToLong s : Nat) : Int) = s := by
  obtain ⟨a, b, c, d, ha, hb, hc, hd, hsp, rfl⟩ := isValidIp_destruct h
  rw [ipToLong_mkIp ha hb hc hd, longToIp_eval ha hb hc hd]

theorem ipToLong_longToIp {v : Nat} (h : v < 2 ^ 32) :
    ipToLong (longToIp (v : Int)) = v := by
  have hv : v = ((v / 2 ^ 24 * 256 + v / 2 ^ 16 % 256) * 256 + v / 2 ^ 8 % 256) * 256
      + v % 256 := by omega
  rw [hv, longToIp_eval (by omega) (by omega) (by omega) (by omega),
    ipToLong_mkIp (by omega) (by omega) (by omega) (by omega)]

/-- C4: for every dotted-decimal string S accepted by the parser
(`isValidIp`), converting it to a 32-bit integer with `ipToLong` and
rendering it back with `longToIp` returns exactly S: rendering is the
exact inverse of parsing on all valid inputs. -/
theorem c4_roundtrip (s : List Char) (h : isValidIp s = true) :
    longToIp ((ipToLong s : Nat) : Int) = s :=
  longToIp_ipToLong h

/-- Witness for C4 at the concrete address 192.168.1.10. -/
theorem c4_roundtrip_witness :
    isValidIp (strL "192.168.1.10") = true ∧
      longToIp ((ipToLong (strL "192.168.1.10") : Nat) : Int) = strL "192.168.1.10" :=
  ⟨by decide, c4_roundtrip (strL "192.168.1.10") (by decide)⟩

/-- C5: the parser accepts a string iff splitting it on '.' yields exactly
four parts, each of which is the canonical decimal rendering of an integer
in [0,255]; in particular it rejects "256.1.1.1", "1.2.3", "1.2.3.04",
"1.2.3.4.5", "a.b.c.d", and parts with leading zeros, whitespace or signs
(and, being a total function, it never throws). -/
theorem c5_parser_characterization :
    (∀ s : List Char, isValidIp s = true ↔
      ((splitDot s).length = 4 ∧ ∀ p ∈ splitDot s, ∃ m : Nat, m ≤ 255 ∧ p = natToStr m)) ∧
    isValidIp (strL "256.1.1.1") = false ∧
    isValidIp (strL "1.2.3") = false ∧
    isValidIp (strL "1.2.3.04") = false ∧
    isValidIp (strL "1.2.3.4.5") = false ∧
    isValidIp (strL "a.b.c.d") = false ∧
    isValidIp (strL "01.2.3.4") = false ∧
    isValidIp (strL " 1.2.3.4") = false ∧
    isValidIp (strL "+1.2.3.4") = false :=
  ⟨isValidIp_iff, by decide, by decide, by decide, by decide, by decide, by decide,
    by decide, by decide⟩

/-- Witness for C5: the characterization applied at 192.168.1.10. -/
theorem c5_parser_characterization_witness :
    (splitDot (strL "192.168.1.10")).length = 4 ∧
      ∀ p ∈ splitDot (strL "192.168.1.10"), ∃ m : Nat, m ≤ 255 ∧ p = natToStr m :=
  (c5_parser_characterization.1 (strL "192.168.1.10")).mp (by decide)

set_option maxRecDepth 100000

/-- C1: evaluation of the code at the failing input (address 1.2.3.4,
prefix 0).  The claim (and the spec) say mask(0) = 0, network 0.0.0.0 and
broadcast 255.255.255.255; the code's `-1 << (32 - 0)` shifts by 32 mod 32
= 0 bits, so the mask is all-ones and network = broadcast = the input
address. -/
theorem c1_mask_bug_eval :
    (calculateSubnet (strL "1.2.3.4") 0 none).subnetMask = strL "255.255.255.255" ∧
    (calculateSubnet (strL "1.2.3.4") 0 none).networkAddress = strL "1.2.3.4" ∧
    (calculateSubnet (strL "1.2.3.4") 0 none).broadcastAddress = strL "1.2.3.4" :=
  ⟨by decide, by decide, by decide⟩

/-- C7: evaluation of the code at the failing input (address 8.8.8.8,
prefix 0).  Under the claim's mask(0) = 0 the candidate span is the whole
address space, which intersects 10.0.0.0/8; the code's mask is all-ones at
cidr = 0, the span collapses to the single address, and no overlap is
reported.  The claim's positive example (11.0.0.1/7 overlaps 10.0.0.0/8)
does hold. -/
theorem c7_overlap_bug_eval :
    checkPrivateOverlap (strL "8.8.8.8") 0 = none ∧
    checkPrivateOverlap (strL "11.0.0.1") 7 = some (strL "10.0.0.0/8") :=
  ⟨by decide, by decide⟩

/-- C2: evaluation of the code at the failing input (address 128.0.0.1,
target prefix 1, base prefix 0).  The claim's baseNetwork = a AND mask(0)
= 0.0.0.0 would give ascending rows 0.0.0.0, 128.0.0.0; the code's mask(0)
is all-ones, so baseNetwork is the raw address and the rows are the
non-aligned, descending 128.0.0.1, 0.0.0.1.  The claim's capped
enumeration example (base 8, target 30, limit 256) does hold. -/
theorem c2_enumerator_bug_eval :
    ((generateSubnetTable (strL "128.0.0.1") 1 0 256).rows.map fun r => r.networkAddress) =
      [strL "128.0.0.1", strL "0.0.0.1"] ∧
    (generateSubnetTable (strL "128.0.0.1") 1 0 256).totalCount = 2 ∧
    (generateSubnetTable (strL "128.0.0.1") 1 0 256).truncated = false ∧
    (generateSubnetTable (strL "10.0.0.0") 30 8 256).rows.length = 256 ∧
    (generateSubnetTable (strL "10.0.0.0") 30 8 256).totalCount = 4194304 ∧
    (generateSubnetTable (strL "10.0.0.0") 30 8 256).truncated = true :=
  ⟨by decide, by decide, by decide, by decide, by decide, by decide⟩

/-- C3 counterexample: for the invalid address "abc" with prefix 24 the
result echoes the input ip and cidr and sets networkClass to "-", so not
every numeric field is zero and not every string field is empty. -/
theorem c3_counterexample :
    isValidIp (strL "abc") = false ∧
    (calculateSubnet (strL "abc") 24 none).cidr = 24 ∧
    (calculateSubnet (strL "abc") 24 none).ip = strL "abc" ∧
    (calculateSubnet (strL "abc") 24 none).networkClass = strL "-" :=
  ⟨by decide, by decide, by decide, by decide⟩

/-- C3 (amended): for every syntactically invalid address string,
calculateSubnet returns isValid = false with the input ip and cidr echoed
back, every other numeric field zero and every other string field empty
except networkClass, which is "-" (and, being a total function, it never
throws); generateSubnetTable returns empty rows with totalCount = 0 and
truncated = false whenever the address is invalid or cidr < baseCidr. -/
theorem c3_amended_invalid_handling :
    (∀ (s : List Char) (cidr : Nat) (p : Option Nat), isValidIp s = false →
      calculateSubnet s cidr p =
        { isValid := false, ip := s, cidr := cidr, subnetMask := [], networkAddress := [],
          broadcastAddress := [], firstHost := [], lastHost := [], hostsPerSubnet := 0,
          hostBits := 0, borrowedBits := 0, subnetsCreated := 0, networkClass := strL "-",
          defaultCidr := 0, baseCidr := 0, binaryIp := [], binaryMask := [],
          binaryNet := [] }) ∧
    (∀ (s : List Char) (cidr baseCidr limit : Nat), isValidIp s = false ∨ cidr < baseCidr →
      generateSubnetTable s cidr baseCidr limit = ⟨[], 0, false⟩) := by
  constructor
  · intro s cidr p h
    simp [calculateSubnet, h]
  · intro s cidr baseCidr limit h
    rcases h with h | h
    · simp [generateSubnetTable, h]
    · simp [generateSubnetTable, h]

/-- Witness for the amended C3 at the concrete inputs "abc"/24 and
1.2.3.4 with cidr 8 < baseCidr 24. -/
theorem c3_amended_invalid_handling_witness :
    calculateSubnet (strL "abc") 24 none =
      { isValid := false, ip := strL "abc", cidr := 24, subnetMask := [], networkAddress := [],
        broadcastAddress := [], firstHost := [], lastHost := [], hostsPerSubnet := 0,
        hostBits := 0, borrowedBits := 0, subnetsCreated := 0, networkClass := strL "-",
        defaultCidr := 0, baseCidr := 0, binaryIp := [], binaryMask := [], binaryNet := [] } ∧
    generateSubnetTable (strL "1.2.3.4") 8 24 256 = ⟨[], 0, false⟩ :=
  ⟨c3_amended_invalid_handling.1 (strL "abc") 24 none (by decide),
   c3_amended_invalid_handling.2 (strL "1.2.3.4") 8 24 256 (Or.inr (by omega))⟩

theorem getIpCategory_eq_specClassify (s : List Char) :
    ((getIpCategory s).type, (getIpCategory s).rangeName, (getIpCategory s).minCidr) =
      specClassify s := by
  have r10 : ipToLong (strL "10.0.0.0") = 167772160 := by decide
  have r172 : ipToLong (strL "172.16.0.0") = 2886729728 := by decide
  have r192 : ipToLong (strL "192.168.0.0") = 3232235520 := by decide
  have r127 : ipToLong (strL "127.0.0.0") = 2130706432 := by decide
  have r169 : ipToLong (strL "169.254.0.0") = 2851995648 := by decide
  have r100 : ipToLong (strL "100.64.0.0") = 1681915904 := by decide
  have r224 : ipToLong (strL "224.0.0.0") = 3758096384 := by decide
  have r240 : ipToLong (strL "240.0.0.0") = 4026531840 := by decide
  unfold getIpCategory specClassify rangeHit
  rw [r10, r172, r192, r127, r169, r100, r224, r240]
  norm_num
  by_cases hv : isValidIp s
  · simp only [hv, not_true_eq_false, if_false]
    by_cases h1 : 167772160 ≤ ipToLong s ∧ ipToLong s ≤ 184549375
    · simp [PRIVATE_RANGES, List.find?, ← Bool.decide_and, h1]
    · by_cases h2 : 2886729728 ≤ ipToLong s ∧ ipToLong s ≤ 2887778303
      · simp [PRIVATE_RANGES, List.find?, ← Bool.decide_and, h1, h2]
      · by_cases h3 : 3232235520 ≤ ipToLong s ∧ ipToLong s ≤ 3232301055
        · simp [PRIVATE_RANGES, List.find?, ← Bool.decide_and, h1, h2, h3]
        · by_cases h4 : 2130706432 ≤ ipToLong s ∧ ipToLong s ≤ 2147483647
          · simp [PRIVATE_RANGES, List.find?, ← Bool.decide_and, h1, h2, h3, h4]
          · by_cases h5 : 2851995648 ≤ ipToLong s ∧ ipToLong s ≤ 2852061183
            · simp [PRIVATE_RANGES, List.find?, ← Bool.decide_and, h1, h2, h3, h4, h5]
            · by_cases h6 : 1681915904 ≤ ipToLong s ∧ ipToLong s ≤ 1686110207
              · simp [PRIVATE_RANGES, List.find?, ← Bool.decide_and, h1, h2, h3, h4, h5, h6]
              · by_cases h7 : 3758096384 ≤ ipToLong s ∧ ipToLong s ≤ 4026531839
                · simp [PRIVATE_RANGES, List.find?, ← Bool.decide_and, h1, h2, h3, h4, h5, h6, h7]
                · by_cases h8 : 4026531840 ≤ ipToLong s ∧ ipToLong s ≤ 4294967295
                  · simp [PRIVATE_RANGES, List.find?, ← Bool.decide_and, h1, h2, h3, h4, h5, h6, h7, h8]
                  · simp [PRIVATE_RANGES, List.find?, ← Bool.decide_and, h1, h2, h3, h4, h5, h6, h7, h8]
  · simp only [hv, not_false_eq_true, if_true]

/-- C6: `getIpCategory` classifies every string exactly as the spec's
priority-ordered contiguous ranges prescribe (`specClassify`, written from
the claim's words, with ranges given by dotted base and prefix length and
invalid strings mapping to Unknown); and the claim's concrete examples
hold. -/
theorem c6_classifier :
    (∀ s : List Char,
      ((getIpCategory s).type, (getIpCategory s).rangeName, (getIpCategory s).minCidr) =
        specClassify s) ∧
    getIpCategory (strL "10.5.0.1") =
      ⟨IpType.Private, some (strL "10.0.0.0/8"), some 8, some (strL "RFC 1918 Private"), true⟩ ∧
    (getIpCategory (strL "8.8.8.8")).type = IpType.Public ∧
    (getIpCategory (strL "127.0.0.1")).type = IpType.Loopback ∧
    (getIpCategory (strL "169.254.1.1")).type = IpType.LinkLocal ∧
    (getIpCategory (strL "100.64.0.1")).type = IpType.CGNAT ∧
    (getIpCategory (strL "224.0.0.1")).type = IpType.Multicast ∧
    (getIpCategory (strL "abc")).type = IpType.Unknown :=
  ⟨getIpCategory_eq_specClassify, by decide, by decide, by decide, by decide, by decide,
    by decide, by decide⟩

theorem calculateSubnet_valid_eq {s : List Char} (hv : isValidIp s = true) (cidr : Nat)
    (p : Option Nat) :
    calculateSubnet s cidr p =
      { isValid := true, ip := s, cidr := cidr,
        subnetMask := longToIp (maskLongOf cidr),
        networkAddress := longToIp ((networkLongOf s cidr : Nat) : Int),
        broadcastAddress := longToIp ((broadcastLongOf s cidr : Nat) : Int),
        firstHost :=
          if cidr < 31 then
            longToIp ((toUint32 ((networkLongOf s cidr : Int) + 1) : Nat) : Int)
          else strL "N/A",
        lastHost :=
          if cidr < 31 then
            longToIp ((toUint32 ((broadcastLongOf s cidr : Int) - 1) : Nat) : Int)
          else strL "N/A",
        hostsPerSubnet :=
          if 0 < (if 0 < 32 - cidr then 2 ^ (32 - cidr) - 2 else 0) then
            (if 0 < 32 - cidr then 2 ^ (32 - cidr) - 2 else 0)
          else 0,
        hostBits := 32 - cidr,
        borrowedBits :=
          if 0 < baseCidrOf s p ∧ baseCidrOf s p ≤ cidr then cidr - baseCidrOf s p else 0,
        subnetsCreated :=
          2 ^ (if 0 < baseCidrOf s p ∧ baseCidrOf s p ≤ cidr then cidr - baseCidrOf s p else 0),
        networkClass := (netClassOf s).char,
        defaultCidr := (netClassOf s).defaultCidr,
        baseCidr := baseCidrOf s p,
        binaryIp := toBinaryString ((ipToLong s : Nat) : Int),
        binaryMask := toBinaryString (maskLongOf cidr),
        binaryNet := toBinaryString ((networkLongOf s cidr : Nat) : Int) } := by
  simp [calculateSubnet, hv, maskLongOf, networkLongOf, broadcastLongOf, netClassOf, baseCidrOf]

theorem networkLongOf_lt (s : List Char) (cidr : Nat) : networkLongOf s cidr < 2 ^ 32 :=
  toUint32_lt _

theorem broadcastLongOf_lt (s : List Char) (cidr : Nat) : broadcastLongOf s cidr < 2 ^ 32 :=
  toUint32_lt _

theorem toUint32_add_one {n : Nat} (h : n < 2 ^ 32) :
    toUint32 ((n : Int) + 1) = (n + 1) % 2 ^ 32 := by
  unfold toUint32; omega

theorem toUint32_sub_one {n : Nat} (h : n < 2 ^ 32) :
    toUint32 ((n : Int) - 1) = (n + (2 ^ 32 - 1)) % 2 ^ 32 := by
  unfold toUint32; omega

theorem maskLongOf_32 : maskLongOf 32 = -1 := by decide

theorem networkLongOf_32 (s : List Char) : networkLongOf s 32 = ipToLong s := by
  unfold networkLongOf jsAnd
  rw [maskLongOf_32, toUint32_toInt32, (by decide : toUint32 (-1 : Int) = 2 ^ 32 - 1),
    toUint32_coe_lt (ipToLong_lt s), Nat.and_pow_two_sub_one_eq_mod,
    toUint32_coe_lt (Nat.mod_lt _ (by norm_num)), Nat.mod_eq_of_lt (ipToLong_lt s)]

theorem broadcastLongOf_32 (s : List Char) : broadcastLongOf s 32 = ipToLong s := by
  unfold broadcastLongOf jsOr
  rw [maskLongOf_32, networkLongOf_32, (by decide : jsNot (-1 : Int) = 0),
    toUint32_toInt32, (by decide : toUint32 (0 : Int) = 0),
    toUint32_coe_lt (ipToLong_lt s), Nat.or_zero, toUint32_coe_lt (ipToLong_lt s)]

/-- C8: for every valid address and prefix length in [0,32], calculateSubnet
sets hostBits = 32 - cidr and hostsPerSubnet = max(0, 2^hostBits - 2),
reports firstHost = network+1 and lastHost = broadcast-1 (as unsigned
32-bit values rendered to dotted-decimal text) when cidr < 31 and "N/A"
for both when cidr >= 31; in particular cidr=24 gives 254 hosts, cidr=31
gives 0 hosts with N/A hosts, and cidr=32 gives network = broadcast = the
input address. -/
theorem c8_host_fields (s : List Char) (cidr : Nat) (p : Option Nat) (hv : isValidIp s = true)
    (hc : cidr ≤ 32) :
    (calculateSubnet s cidr p).hostBits = 32 - cidr ∧
    ((calculateSubnet s cidr p).hostsPerSubnet : Int) = max 0 ((2 : Int) ^ (32 - cidr) - 2) ∧
    (cidr < 31 →
      ipToLong (calculateSubnet s cidr p).firstHost =
        (ipToLong (calculateSubnet s cidr p).networkAddress + 1) % 2 ^ 32 ∧
      ipToLong (calculateSubnet s cidr p).lastHost =
        (ipToLong (calculateSubnet s cidr p).broadcastAddress + (2 ^ 32 - 1)) % 2 ^ 32) ∧
    (31 ≤ cidr → (calculateSubnet s cidr p).firstHost = strL "N/A" ∧
      (calculateSubnet s cidr p).lastHost = strL "N/A") ∧
    (cidr = 24 → (calculateSubnet s cidr p).hostsPerSubnet = 254) ∧
    (cidr = 31 → (calculateSubnet s cidr p).hostsPerSubnet = 0) ∧
    (cidr = 32 → (calculateSubnet s cidr p).networkAddress = s ∧
      (calculateSubnet s cidr p).broadcastAddress = s) := by
  rw [calculateSubnet_valid_eq hv]
  refine ⟨rfl, ?_, ?_, ?_, ?_, ?_, ?_⟩
  · show ((if 0 < (if 0 < 32 - cidr then 2 ^ (32 - cidr) - 2 else 0) then
        (if 0 < 32 - cidr then 2 ^ (32 - cidr) - 2 else 0) else 0 : Nat) : Int) = _
    have hcast : ((2 ^ (32 - cidr) : Nat) : Int) = (2 : Int) ^ (32 - cidr) := by
      push_cast; ring
    rcases Nat.lt_or_ge cidr 31 with h | h
    · have h4 : 4 ≤ 2 ^ (32 - cidr) := by
        calc (4 : Nat) = 2 ^ 2 := by norm_num
        _ ≤ 2 ^ (32 - cidr) := Nat.pow_le_pow_right (by norm_num) (by omega)
      rw [← hcast, if_pos (show 0 < 32 - cidr by omega)]
      rw [if_pos (show 0 < 2 ^ (32 - cidr) - 2 by omega)]
      generalize hgen : (2 ^ (32 - cidr) : Nat) = n at h4 ⊢
      omega
    · have h32 : cidr = 31 ∨ cidr = 32 := by omega
      rcases h32 with rfl | rfl <;> norm_num
  · intro h
    simp only [if_pos h]
    constructor
    · rw [toUint32_add_one (networkLongOf_lt s cidr),
        ipToLong_longToIp (Nat.mod_lt _ (by norm_num)),
        ipToLong_longToIp (networkLongOf_lt s cidr)]
    · rw [toUint32_sub_one (broadcastLongOf_lt s cidr),
        ipToLong_longToIp (Nat.mod_lt _ (by norm_num)),
        ipToLong_longToIp (broadcastLongOf_lt s cidr)]
  · intro h
    rw [if_neg (by omega), if_neg (by omega)]
    exact ⟨rfl, rfl⟩
  · rintro rfl
    norm_num
  · rintro rfl
    norm_num
  · rintro rfl
    refine ⟨?_, ?_⟩
    · show longToIp ((networkLongOf s 32 : Nat) : Int) = s
      rw [networkLongOf_32]
      exact longToIp_ipToLong hv
    · show longToIp ((broadcastLongOf s 32 : Nat) : Int) = s
      rw [broadcastLongOf_32]
      exact longToIp_ipToLong hv

theorem getNetworkClass_defaultCidr (a : Nat) (ha : a ≤ 255) :
    (getNetworkClass (a : Int)).defaultCidr =
      (if a ≤ 127 then 8 else if a ≤ 191 then 16 else if a ≤ 223 then 24 else 0) := by
  unfold getNetworkClass
  split_ifs <;> first | rfl | omega

theorem netClassOf_mkIp {a b c d : Nat} (ha : a ≤ 255) (hb : b ≤ 255) (hc : c ≤ 255)
    (hd : d ≤ 255) : netClassOf (mkIp a b c d) = getNetworkClass (a : Int) := by
  unfold netClassOf
  rw [splitDot_mkIp ha hb hc hd]
  show (match jsParseInt10 (natToStr a) with
    | some n => getNetworkClass n
    | none => ⟨strL "E", 0⟩) = getNetworkClass (a : Int)
  rw [jsParseInt10_natToStr a (by omega)]

/-- C9: for every valid address (written by its four octets) and prefix
length in [0,32], calculateSubnet sets baseCidr to parentCidr when
supplied and otherwise to the legacy class default of the first octet
(A:[0,127] gives 8, B:[128,191] gives 16, C:[192,223] gives 24,
D:[224,239] and E:[240,255] give 0), sets borrowedBits = cidr - baseCidr
exactly when baseCidr > 0 and cidr >= baseCidr and 0 otherwise, and sets
subnetsCreated = 2^borrowedBits. -/
theorem c9_base_borrow (a b c d : Nat) (cidr : Nat) (p : Option Nat)
    (ha : a ≤ 255) (hb : b ≤ 255) (hc : c ≤ 255) (hd : d ≤ 255) (hcidr : cidr ≤ 32) :
    (calculateSubnet (mkIp a b c d) cidr p).baseCidr =
      p.getD (if a ≤ 127 then 8 else if a ≤ 191 then 16 else if a ≤ 223 then 24 else 0) ∧
    (calculateSubnet (mkIp a b c d) cidr p).borrowedBits =
      (if 0 < (calculateSubnet (mkIp a b c d) cidr p).baseCidr ∧
          (calculateSubnet (mkIp a b c d) cidr p).baseCidr ≤ cidr then
        cidr - (calculateSubnet (mkIp a b c d) cidr p).baseCidr
      else 0) ∧
    (calculateSubnet (mkIp a b c d) cidr p).subnetsCreated =
      2 ^ (calculateSubnet (mkIp a b c d) cidr p).borrowedBits := by
  have hv := isValidIp_mkIp ha hb hc hd
  rw [calculateSubnet_valid_eq hv]
  have hbase : baseCidrOf (mkIp a b c d) p =
      p.getD (if a ≤ 127 then 8 else if a ≤ 191 then 16 else if a ≤ 223 then 24 else 0) := by
    unfold baseCidrOf
    rw [netClassOf_mkIp ha hb hc hd, getNetworkClass_defaultCidr a ha]
  exact ⟨hbase, by rw [hbase], rfl⟩

/-- Witness for C8 at the concrete address 192.168.1.10 with prefix 24. -/
theorem c8_host_fields_witness :
    isValidIp (strL "192.168.1.10") = true ∧ 24 ≤ 32 ∧
    ((calculateSubnet (strL "192.168.1.10") 24 none).hostBits = 32 - 24 ∧
    ((calculateSubnet (strL "192.168.1.10") 24 none).hostsPerSubnet : Int) =
      max 0 ((2 : Int) ^ (32 - 24) - 2) ∧
    (24 < 31 →
      ipToLong (calculateSubnet (strL "192.168.1.10") 24 none).firstHost =
        (ipToLong (calculateSubnet (strL "192.168.1.10") 24 none).networkAddress + 1) % 2 ^ 32 ∧
      ipToLong (calculateSubnet (strL "192.168.1.10") 24 none).lastHost =
        (ipToLong (calculateSubnet (strL "192.168.1.10") 24 none).broadcastAddress +
          (2 ^ 32 - 1)) % 2 ^ 32) ∧
    (31 ≤ 24 → (calculateSubnet (strL "192.168.1.10") 24 none).firstHost = strL "N/A" ∧
      (calculateSubnet (strL "192.168.1.10") 24 none).lastHost = strL "N/A") ∧
    (24 = 24 → (calculateSubnet (strL "192.168.1.10") 24 none).hostsPerSubnet = 254) ∧
    (24 = 31 → (calculateSubnet (strL "192.168.1.10") 24 none).hostsPerSubnet = 0) ∧
    (24 = 32 → (calculateSubnet (strL "192.168.1.10") 24 none).networkAddress =
        strL "192.168.1.10" ∧
      (calculateSubnet (strL "192.168.1.10") 24 none).broadcastAddress = strL "192.168.1.10")) :=
  ⟨by decide, by norm_num,
    c8_host_fields (strL "192.168.1.10") 24 none (by decide) (by norm_num)⟩

/-- Witness for C9 at the concrete address 10.5.0.1 with prefix 26 and no
parent prefix. -/
theorem c9_base_borrow_witness :
    10 ≤ 255 ∧ 26 ≤ 32 ∧
    ((calculateSubnet (mkIp 10 5 0 1) 26 none).baseCidr =
      (none : Option Nat).getD
        (if 10 ≤ 127 then 8 else if 10 ≤ 191 then 16 else if 10 ≤ 223 then 24 else 0) ∧
    (calculateSubnet (mkIp 10 5 0 1) 26 none).borrowedBits =
      (if 0 < (calculateSubnet (mkIp 10 5 0 1) 26 none).baseCidr ∧
          (calculateSubnet (mkIp 10 5 0 1) 26 none).baseCidr ≤ 26 then
        26 - (calculateSubnet (mkIp 10 5 0 1) 26 none).baseCidr
      else 0) ∧
    (calculateSubnet (mkIp 10 5 0 1) 26 none).subnetsCreated =
      2 ^ (calculateSubnet (mkIp 10 5 0 1) 26 none).borrowedBits) :=
  ⟨by norm_num, by norm_num,
    c9_base_borrow 10 5 0 1 26 none (by norm_num) (by norm_num) (by norm_num) (by norm_num)
      (by norm_num)⟩

theorem no_two_current {x y ip inc B MB : Nat} (hM : MB ≤ 2 ^ 32) (hB : B < 2 ^ 32)
    (hip : ip < 2 ^ 32) (hinc : 0 < inc) (hx : B ≤ x) (h1 : x + inc ≤ y)
    (h2 : y + inc ≤ B + MB) :
    ¬((x % 2 ^ 32 ≤ ip ∧ ip ≤ (x % 2 ^ 32 + inc - 1) % 2 ^ 32) ∧
      (y % 2 ^ 32 ≤ ip ∧ ip ≤ (y % 2 ^ 32 + inc - 1) % 2 ^ 32)) := by
  omega

theorem countP_le_one_of_range {n : Nat} {p : Nat → Bool}
    (h : ∀ i j, i < j → j < n → ¬(p i = true ∧ p j = true)) :
    (List.range n).countP p ≤ 1 := by
  rw [List.countP_eq_length_filter]
  match hf : (List.range n).filter p with
  | [] => simp
  | [x] => simp
  | x :: y :: t =>
    exfalso
    have hnd : ((List.range n).filter p).Nodup := (List.nodup_range n).filter p
    rw [hf] at hnd
    have hx : x ∈ (List.range n).filter p := by rw [hf]; simp
    have hy : y ∈ (List.range n).filter p := by rw [hf]; simp
    rw [List.mem_filter, List.mem_range] at hx hy
    have hxy : x ≠ y := by
      rcases List.nodup_cons.mp hnd with ⟨hnotmem, _⟩
      intro he
      exact hnotmem (he ▸ List.mem_cons_self y t)
    rcases Nat.lt_or_ge x y with hlt | hge
    · exact h x y hlt hy.1 ⟨hx.2, hy.2⟩
    · have : y < x := by omega
      exact h y x this hx.1 ⟨hy.2, hx.2⟩

theorem c10_part1 (s : List Char) (cidr baseCidr limit : Nat) (h32 : cidr ≤ 32)
    (hb32 : baseCidr ≤ 32) :
    ((generateSubnetTable s cidr baseCidr limit).rows.countP (fun row => row.isCurrent)) ≤ 1 := by
  by_cases hg : ¬ (isValidIp s = true) ∨ cidr < baseCidr
  · unfold generateSubnetTable
    rw [if_pos hg]
    simp
  · unfold generateSubnetTable
    rw [if_neg hg]
    push_neg at hg
    obtain ⟨hv, hcb⟩ := hg
    simp only [List.countP_map]
    refine countP_le_one_of_range ?_
    intro i j hij hj hboth
    obtain ⟨hpi, hpj⟩ := hboth
    simp only [Function.comp_apply, Bool.and_eq_true, decide_eq_true_eq] at hpi hpj
    have hij1 : (i + 1) * 2 ^ (32 - cidr) ≤ j * 2 ^ (32 - cidr) :=
      Nat.mul_le_mul_right _ (by omega)
    have hjtot : (j + 1) * 2 ^ (32 - cidr) ≤ 2 ^ (cidr - baseCidr) * 2 ^ (32 - cidr) :=
      Nat.mul_le_mul_right _ (by omega)
    have hpow : 2 ^ (cidr - baseCidr) * 2 ^ (32 - cidr) = 2 ^ (32 - baseCidr) := by
      rw [← pow_add]
      congr 1
      omega
    rw [Nat.succ_mul] at hij1 hjtot
    rw [hpow] at hjtot
    have hMB : 2 ^ (32 - baseCidr) ≤ 2 ^ 32 := Nat.pow_le_pow_right (by norm_num) (by omega)
    have hB := toUint32_lt (jsAnd ((ipToLong s : Nat) : Int)
      ((toUint32 (jsShl (-1) ((32 : Int) - (baseCidr : Int))) : Nat) : Int))
    exact no_two_current hMB hB (ipToLong_lt s) (Nat.two_pow_pos _) (Nat.le_add_right _ _)
      (by omega) (by omega) ⟨hpi, hpj⟩

theorem c10_part2 (s : List Char) (cidr baseCidr limit : Nat) (row : SubnetRow)
    (hmem : row ∈ (generateSubnetTable s cidr baseCidr limit).rows) :
    row.isCurrent = (decide (ipToLong row.networkAddress ≤ ipToLong s) &&
      decide (ipToLong s ≤ ipToLong row.broadcastAddress)) := by
  by_cases hg : ¬ (isValidIp s = true) ∨ cidr < baseCidr
  · unfold generateSubnetTable at hmem
    rw [if_pos hg] at hmem
    simp at hmem
  · unfold generateSubnetTable at hmem
    rw [if_neg hg] at hmem
    simp only [List.mem_map, List.mem_range] at hmem
    obtain ⟨i, hi, rfl⟩ := hmem
    dsimp only
    rw [ipToLong_longToIp (Nat.mod_lt _ (by norm_num)),
      ipToLong_longToIp (Nat.mod_lt _ (by norm_num))]

/-- C10: in every result of generateSubnetTable at most one returned row
has isCurrent = true; a row is current exactly when its
[network, broadcast] interval contains the input address; and when the
result is truncated it is possible that no returned row is current (the
concrete truncated table for 10.255.255.255 with target prefix 10, base 8
and cap 2 has two rows, none current). -/
theorem c10_current_invariant :
    (∀ (s : List Char) (cidr baseCidr limit : Nat), cidr ≤ 32 → baseCidr ≤ 32 →
      ((generateSubnetTable s cidr baseCidr limit).rows.countP (fun row => row.isCurrent)) ≤ 1) ∧
    (∀ (s : List Char) (cidr baseCidr limit : Nat) (row : SubnetRow),
      row ∈ (generateSubnetTable s cidr baseCidr limit).rows →
      row.isCurrent = (decide (ipToLong row.networkAddress ≤ ipToLong s) &&
        decide (ipToLong s ≤ ipToLong row.broadcastAddress))) ∧
    (generateSubnetTable (strL "10.255.255.255") 10 8 2).truncated = true ∧
    (generateSubnetTable (strL "10.255.255.255") 10 8 2).rows.countP
      (fun row => row.isCurrent) = 0 ∧
    (generateSubnetTable (strL "10.255.255.255") 10 8 2).rows.length = 2 :=
  ⟨c10_part1, c10_part2, by decide, by decide, by decide⟩

/-- Witness for C10: the at-most-one-current bound applied at the concrete
table for 192.168.1.10 with target prefix 26, base prefix 24, cap 256. -/
theorem c10_current_invariant_witness :
    26 ≤ 32 ∧ 24 ≤ 32 ∧
      ((generateSubnetTable (strL "192.168.1.10") 26 24 256).rows.countP
        (fun row => row.isCurrent)) ≤ 1 :=
  ⟨by norm_num, by norm_num,
    c10_current_invariant.1 (strL "192.168.1.10") 26 24 256 (by norm_num) (by norm_num)⟩
